import Mathlib

/-!
Shallow embedding of `scripts/generate_docs_index.py`.

The script scans a directory of weekly report files, derives a calendar date
for each from its filename (falling back to the file's modification date),
sorts the entries newest first, and renders two Markdown index documents plus
a `.nojekyll` marker file.

Modelling conventions:
* Python `datetime.date` values become the `PDate` structure (year, month,
  day as `Nat`), with Python's calendar validity rules (`MINYEAR = 1`,
  `MAXYEAR = 9999`, real month lengths, Gregorian leap years).
* The two regular expressions of the script (`date_regex_iso` and
  `date_like`) are embedded by a small backtracking matcher over `List Char`
  with Python `re.search` semantics: leftmost starting position wins, at a
  given position the first alternative wins, quantifiers are greedy with
  backtracking.  Character classes `\d` and `[A-Za-z]` are modelled over
  ASCII.
* Fallible parsers (`datetime.strptime`, `dateutil.parser.parse`) return
  `Except Unit PDate`; the script's `try/except` blocks become matches on
  that result.
* Filesystem reads (directory listing, per-file modification dates, the
  prior content of `.nojekyll`) and the current clock are inputs to the
  embedded run; writes are the fields of `RunOutput`.
-/

/-- A Python `datetime.date`: a plain calendar date. -/
structure PDate where
  year : Nat
  month : Nat
  day : Nat
deriving DecidableEq, Repr

/-- Gregorian leap year, as `calendar.isleap` / `datetime` use it. -/
def isLeap (y : Nat) : Bool :=
  y % 4 == 0 && (y % 100 != 0 || y % 400 == 0)

/-- Length of a month in the proleptic Gregorian calendar. -/
def daysInMonth (y m : Nat) : Nat :=
  if m == 2 then (if isLeap y then 29 else 28)
  else if m == 4 || m == 6 || m == 9 || m == 11 then 30
  else 31

/-- Validity of a (year, month, day) triple for Python's `datetime.date`
(year restricted to `MINYEAR = 1 .. MAXYEAR = 9999`). -/
def validDate (y m d : Nat) : Bool :=
  decide (1 ≤ y ∧ y ≤ 9999 ∧ 1 ≤ m ∧ m ≤ 12 ∧ 1 ≤ d) && decide (d ≤ daysInMonth y m)

/-- Comparison `a ≤ b` on dates, as Python compares `datetime.date`
values (lexicographic on year, month, day). -/
def dateLe (a b : PDate) : Bool :=
  decide (a.year < b.year ∨ (a.year = b.year ∧
    (a.month < b.month ∨ (a.month = b.month ∧ a.day ≤ b.day))))

/-- A backtracking regex fragment: from an input suffix, the list of
(consumed characters, remaining suffix) outcomes in preference order. -/
abbrev RMatcher : Type := List Char → List (List Char × List Char)

/-- Match a single character satisfying `p` (a character class). -/
def rchar (p : Char → Bool) : RMatcher := fun l =>
  match l with
  | [] => []
  | c :: rest => if p c then [([c], rest)] else []

/-- Sequencing of fragments, preserving backtracking preference order. -/
def rseq (p q : RMatcher) : RMatcher := fun l =>
  (p l).flatMap fun cr => (q cr.2).map fun cr2 => (cr.1 ++ cr2.1, cr2.2)

/-- Alternation: the left alternative is preferred, as in Python `re`. -/
def ralt (p q : RMatcher) : RMatcher := fun l => p l ++ q l

/-- Greedy `?`: consuming is preferred over not consuming. -/
def ropt (p : RMatcher) : RMatcher := fun l => p l ++ [([], l)]

/-- Exactly `n` repetitions (for `{n}` on a character class). -/
def rrep : Nat → RMatcher → RMatcher
  | 0, _ => fun l => [([], l)]
  | n + 1, p => rseq p (rrep n p)

/-- Greedy `{n,}` on a character class: longest run first, down to `n`. -/
def rclassAtLeast (p : Char → Bool) (n : Nat) : RMatcher := fun l =>
  let len := (l.takeWhile p).length
  ((List.range (len + 1)).reverse.filter (fun k => n ≤ k)).map
    (fun k => (l.take k, l.drop k))

/-- Search as `re.search` does: try each starting position left to right and report the
consumed characters of the first successful match. -/
def rsearch (p : RMatcher) : List Char → Option (List Char)
  | [] => ((p []).head?).map Prod.fst
  | l@(_ :: rest) =>
    match (p l).head? with
    | some cr => some cr.1
    | none => rsearch p rest

/-- The separator class `[-_ ]` of the `date_like` pattern. -/
def isSepChar (c : Char) : Bool := c == '-' || c == '_' || c == ' '

/-- The pattern `\d{4}-\d{2}-\d{2}` (`date_regex_iso` in the script). -/
def isoPattern : RMatcher :=
  rseq (rrep 4 (rchar Char.isDigit))
    (rseq (rchar (fun c => c == '-'))
      (rseq (rrep 2 (rchar Char.isDigit))
        (rseq (rchar (fun c => c == '-')) (rrep 2 (rchar Char.isDigit)))))

/-- Greedy `\d{1,2}`. -/
def oneOrTwoDigits : RMatcher :=
  ralt (rrep 2 (rchar Char.isDigit)) (rrep 1 (rchar Char.isDigit))

/-- First alternative of `date_like`: `\d{1,2}[-_ ]?[A-Za-z]{3,}[-_ ]?\d{4}`. -/
def dateLikeAlt1 : RMatcher :=
  rseq oneOrTwoDigits
    (rseq (ropt (rchar isSepChar))
      (rseq (rclassAtLeast Char.isAlpha 3)
        (rseq (ropt (rchar isSepChar)) (rrep 4 (rchar Char.isDigit)))))

/-- Second alternative of `date_like`: `[A-Za-z]{3,}[-_ ]?\d{1,2}[-_ ]?\d{4}`. -/
def dateLikeAlt2 : RMatcher :=
  rseq (rclassAtLeast Char.isAlpha 3)
    (rseq (ropt (rchar isSepChar))
      (rseq oneOrTwoDigits
        (rseq (ropt (rchar isSepChar)) (rrep 4 (rchar Char.isDigit)))))

/-- The full `date_like` pattern of the script. -/
def dateLikePattern : RMatcher := ralt dateLikeAlt1 dateLikeAlt2

/-- The search `date_regex_iso.search(fname)`, returning the matched substring. -/
def date_regex_iso_search (s : String) : Option String :=
  (rsearch isoPattern s.toList).map (fun cs => String.mk cs)

/-- The search `date_like.search(fname)`, returning `m2.group(0)`. -/
def date_like_search (s : String) : Option String :=
  (rsearch dateLikePattern s.toList).map (fun cs => String.mk cs)

/-- Numeric value of a run of ASCII digits. -/
def digitsToNat (cs : List Char) : Nat :=
  cs.foldl (fun acc c => acc * 10 + (c.toNat - 48)) 0

/-- Strict parsing `datetime.strptime(s, "%Y-%m-%d").date()` on the strings the script can
pass it (the exact `\d{4}-\d{2}-\d{2}` shape produced by `date_regex_iso`):
parse the ten-character shape and validate the calendar date; anything else
raises, i.e. is `Except.error`. -/
def strptime_Y_m_d (s : String) : Except Unit PDate :=
  match s.toList with
  | [y1, y2, y3, y4, h1, m1, m2, h2, d1, d2] =>
    if ([y1, y2, y3, y4, m1, m2, d1, d2].all Char.isDigit) && h1 == '-' && h2 == '-' then
      let y := digitsToNat [y1, y2, y3, y4]
      let mo := digitsToNat [m1, m2]
      let da := digitsToNat [d1, d2]
      if validDate y mo da then Except.ok ⟨y, mo, da⟩ else Except.error ()
    else Except.error ()
  | _ => Except.error ()

/-- A token of the lenient date parser's input: a run of digits (value and
digit count) or a run of letters. -/
inductive Tok where
  | num : Nat → Nat → Tok
  | word : String → Tok
deriving DecidableEq, Repr

/-- Split a string into maximal digit runs and letter runs, skipping
everything else (separators, dots, ...).  Processes the characters from the
right, merging a character into the first token of the tail exactly when the
adjacent character belongs to the same run. -/
def tokenize : List Char → List Tok
  | [] => []
  | c :: rest =>
    let ts := tokenize rest
    if c.isDigit then
      match rest, ts with
      | r :: _, Tok.num v k :: ts2 =>
        if r.isDigit then Tok.num ((c.toNat - 48) * 10 ^ k + v) (k + 1) :: ts2
        else Tok.num (c.toNat - 48) 1 :: ts
      | _, _ => Tok.num (c.toNat - 48) 1 :: ts
    else if c.isAlpha then
      match rest, ts with
      | r :: _, Tok.word w :: ts2 =>
        if r.isAlpha then Tok.word (String.mk (c :: w.toList)) :: ts2
        else Tok.word (String.mk [c]) :: ts
      | _, _ => Tok.word (String.mk [c]) :: ts
    else ts

/-- Month names and abbreviations recognised by `dateutil`'s default
`parserinfo` (three-letter abbreviations, `sept`, and full names). -/
def monthNames : List (String × Nat) :=
  [("jan", 1), ("january", 1), ("feb", 2), ("february", 2),
   ("mar", 3), ("march", 3), ("apr", 4), ("april", 4), ("may", 5),
   ("jun", 6), ("june", 6), ("jul", 7), ("july", 7),
   ("aug", 8), ("august", 8), ("sep", 9), ("sept", 9), ("september", 9),
   ("oct", 10), ("october", 10), ("nov", 11), ("november", 11),
   ("dec", 12), ("december", 12)]

/-- ASCII lower-casing of one character. -/
def asciiLower (c : Char) : Char :=
  if c.isUpper then Char.ofNat (c.toNat + 32) else c

/-- ASCII lower-casing of a string (month names are ASCII). -/
def lowerString (s : String) : String :=
  String.mk (s.toList.map asciiLower)

/-- Case-insensitive lookup of a month name. -/
def monthFromName (w : String) : Option Nat :=
  (monthNames.find? (fun p => p.1 == lowerString w)).map (fun p => p.2)

/-- Modelled from the spec: `dateutil.parser.parse(s, dayfirst=True,
fuzzy=True).date()` — the external `dateutil` library is not part of this
repository, so its behaviour is taken from spec §4.1, layers 2 and 3: a
lenient parse recognising a "day month-name year" or "month-name day year"
fragment (month name spelled out, at least 3 letters, day 1–2 digits, year 4
digits, arbitrary separators tolerated), preferring the day-before-month
reading, and failing (raising, i.e. `Except.error`) on anything that does
not resolve to such a date. -/
def dparser_parse (s : String) : Except Unit PDate :=
  match tokenize s.toList with
  | [Tok.num d dl, Tok.word w, Tok.num y 4] =>
    (match monthFromName w with
     | some mo => if dl ≤ 2 && validDate y mo d then Except.ok ⟨y, mo, d⟩ else Except.error ()
     | none => Except.error ())
  | [Tok.word w, Tok.num d dl, Tok.num y 4] =>
    (match monthFromName w with
     | some mo => if dl ≤ 2 && validDate y mo d then Except.ok ⟨y, mo, d⟩ else Except.error ()
     | none => Except.error ())
  | _ => Except.error ()

/-- Layer 3 of `extract_date_from_name`: fuzzy-parse the whole filename;
an exception becomes `none` (`return None` via the final `except`). -/
def extract_layer3 (dp : String → Except Unit PDate) (fname : String) : Option PDate :=
  match dp fname with
  | Except.ok d => some d
  | Except.error _ => none

/-- Layer 2 of `extract_date_from_name`: search with `date_like`; on a match
parse `m2.group(0)` leniently, an exception falling through to layer 3. -/
def extract_layer2 (dp : String → Except Unit PDate) (fname : String) : Option PDate :=
  match date_like_search fname with
  | some s =>
    (match dp s with
     | Except.ok d => some d
     | Except.error _ => extract_layer3 dp fname)
  | none => extract_layer3 dp fname

/-- The body of `extract_date_from_name`, generic in the two fallible
parsers it calls (`datetime.strptime` and `dateutil.parser.parse`): search
with `date_regex_iso`; on a match parse strictly, an exception falling
through to layer 2. -/
def extractG (sp dp : String → Except Unit PDate) (fname : String) : Option PDate :=
  match date_regex_iso_search fname with
  | some s =>
    (match sp s with
     | Except.ok d => some d
     | Except.error _ => extract_layer2 dp fname)
  | none => extract_layer2 dp fname

/-- The script's `extract_date_from_name`, with its concrete parsers. -/
def extract_date_from_name (fname : String) : Option PDate :=
  extractG strptime_Y_m_d dparser_parse fname

/-- The list comprehension over `os.listdir(WEEKLY_DIR)`:
`[f for f in listing if f.lower().endswith(".md") and f != "index.md"]`.
`str.lower` is modelled over ASCII by `String.toLower`. -/
def files (listing : List String) : List String :=
  listing.filter (fun f => f.toLower.endsWith ".md" && f != "index.md")

/-- One iteration of the `pairs` loop: derive a date from the name and,
when that yields `None`, fall back to `file_mtime_date(path)`.  The
filesystem read `file_mtime_date` (the file's last-modified timestamp
converted to the local calendar date) is an oracle parameter `mtdate`. -/
def attachDate (mtdate : String → PDate) (f : String) : String × Option PDate :=
  match extract_date_from_name f with
  | some d => (f, some d)
  | none => (f, some (mtdate f))

/-- The full `pairs` list before sorting. -/
def buildPairs (mtdate : String → PDate) (fs : List String) : List (String × Option PDate) :=
  fs.map (attachDate mtdate)

/-- The ordering used by `pairs.sort(key=lambda x: (x[1] is None, x[1]),
reverse=True)`: `sortLe a b` holds when `a` may be placed before `b`, i.e.
when the Python key of `a` is ≥ the key of `b` (a stable descending sort on
the key `(x[1] is None, x[1])`, `False < True` on booleans; the two key
components are only both compared when the `is None` flags agree). -/
def sortLe (a b : String × Option PDate) : Bool :=
  match a.2, b.2 with
  | none, none => true
  | none, some _ => true
  | some _, none => false
  | some da, some db => dateLe db da

/-- The call `pairs.sort(...)` as a stable merge sort with the ordering above. -/
def sortPairs (ps : List (String × Option PDate)) : List (String × Option PDate) :=
  ps.mergeSort sortLe

/-- The sorted entry list of a run, from the raw directory listing and the
modification-date oracle. -/
def pipelinePairs (mtdate : String → PDate) (listing : List String) : List (String × Option PDate) :=
  sortPairs (buildPairs mtdate (files listing))

/-- Decimal rendering of `n`, zero-padded to width `w` (as `%04d`/`%02d`
inside `date.isoformat` and `strftime`). -/
def padNat (w n : Nat) : String :=
  let s := toString n
  String.mk (List.replicate (w - s.length) '0') ++ s

/-- Rendering `date.isoformat()`: `YYYY-MM-DD`. -/
def isoformat (d : PDate) : String :=
  padNat 4 d.year ++ "-" ++ padNat 2 d.month ++ "-" ++ padNat 2 d.day

/-- The `display` variable of the rendering loop: the filename, prefixed by
the ISO date when a date is present (`if dt:` — a `datetime.date` is always
truthy, so the test is equivalent to `dt is not None`). -/
def display (p : String × Option PDate) : String :=
  match p.2 with
  | some dt => isoformat dt ++ " — " ++ p.1
  | none => p.1

/-- One rendered link line: `f"- [{display}]({fname})\n"`. -/
def linkLine (p : String × Option PDate) : String :=
  "- [" ++ display p ++ "](" ++ p.1 ++ ")\n"

/-- The `lines` list of `docs/weekly-reports/index.md`. -/
def weeklyIndexLines (ps : List (String × Option PDate)) : List String :=
  ["# Weekly Reports Index\n\n",
   "_This page lists all available weekly reports._\n\n"]
    ++ (if ps.isEmpty then ["No reports yet.\n"] else ps.map linkLine)

/-- The wall clock reading used by `datetime.utcnow()`. -/
structure UTCTime where
  year : Nat
  month : Nat
  day : Nat
  hour : Nat
  minute : Nat
  second : Nat
deriving DecidableEq, Repr

/-- Formatting `datetime.utcnow().strftime('%Y-%m-%d %H:%M UTC')`: the timestamp is
truncated to the minute (the `second` field is not rendered). -/
def strftimeUpdated (t : UTCTime) : String :=
  padNat 4 t.year ++ "-" ++ padNat 2 t.month ++ "-" ++ padNat 2 t.day ++ " " ++
    padNat 2 t.hour ++ ":" ++ padNat 2 t.minute ++ " UTC"

/-- The `main_lines` list of `docs/index.md`. -/
def main_lines (t : UTCTime) : List String :=
  ["# Thesis Diary — Weekly Reports\n\n",
   "_Updated: " ++ strftimeUpdated t ++ "_\n\n",
   "## Browse\n\n",
   "- [Weekly Reports](/weekly-reports/)\n\n",
   "---\n\nClick above to see individual weekly reports.\n"]

/-- Effect of `open(os.path.join(DOCS, ".nojekyll"), "a").close()` on the
marker file's content: append mode creates an empty file when the file is
absent and leaves existing content untouched. -/
def nojekyllAfter (existing : Option String) : String :=
  match existing with
  | none => ""
  | some c => c

/-- What one run writes: the two generated documents (each written with
`fh.writelines`, i.e. the concatenation of its lines) and the resulting
content of the `.nojekyll` marker. -/
structure RunOutput where
  weeklyIndex : String
  mainIndex : String
  nojekyll : String
deriving DecidableEq, Repr

/-- One full run of the script, as a function of the directory listing, the
modification-date oracle, the prior content of `.nojekyll` (`none` when
absent), and the current clock. -/
def runProgram (listing : List String) (mtdate : String → PDate)
    (prevMarker : Option String) (now : UTCTime) : RunOutput :=
  { weeklyIndex := String.join (weeklyIndexLines (pipelinePairs mtdate listing))
    mainIndex := String.join (main_lines now)
    nojekyll := nojekyllAfter prevMarker }

/-! ## Helper lemmas -/

theorem dateLe_total (a b : PDate) : dateLe a b || dateLe b a := by
  obtain ⟨y1, m1, d1⟩ := a
  obtain ⟨y2, m2, d2⟩ := b
  simp only [dateLe, Bool.or_eq_true, decide_eq_true_eq]
  omega

theorem dateLe_trans (a b c : PDate) : dateLe a b → dateLe b c → dateLe a c := by
  obtain ⟨y1, m1, d1⟩ := a
  obtain ⟨y2, m2, d2⟩ := b
  obtain ⟨y3, m3, d3⟩ := c
  simp only [dateLe, decide_eq_true_eq]
  omega

theorem sortLe_total (a b : String × Option PDate) : sortLe a b || sortLe b a := by
  obtain ⟨f1, o1⟩ := a
  obtain ⟨f2, o2⟩ := b
  cases o1 with
  | none => cases o2 <;> simp [sortLe]
  | some da =>
    cases o2 with
    | none => simp [sortLe]
    | some db => simpa [sortLe] using dateLe_total db da

theorem sortLe_trans (a b c : String × Option PDate) :
    sortLe a b → sortLe b c → sortLe a c := by
  obtain ⟨f1, o1⟩ := a
  obtain ⟨f2, o2⟩ := b
  obtain ⟨f3, o3⟩ := c
  cases o1 <;> cases o2 <;> cases o3 <;> simp [sortLe]
  all_goals exact fun h1 h2 => dateLe_trans _ _ _ h2 h1

theorem attachDate_snd_isSome (mtdate : String → PDate) (f : String) :
    ((attachDate mtdate f).2).isSome := by
  cases h : extract_date_from_name f <;> simp [attachDate, h]

theorem mem_pipelinePairs_isSome (mtdate : String → PDate) (listing : List String)
    (p : String × Option PDate) (hp : p ∈ pipelinePairs mtdate listing) :
    (p.2).isSome := by
  unfold pipelinePairs sortPairs at hp
  rw [List.mem_mergeSort] at hp
  unfold buildPairs at hp
  obtain ⟨f, hf, hfp⟩ := List.mem_map.mp hp
  rw [← hfp]
  exact attachDate_snd_isSome mtdate f

theorem string_join_cons (a : String) (l : List String) :
    String.join (a :: l) = a ++ String.join l := by
  apply String.ext
  simp

/-! ## Claim theorems -/

/-- C1, as stated, is false: when the leftmost `\d{4}-\d{2}-\d{2}` match of
the filename is not a valid calendar date, `extract_date_from_name` falls
through to the natural-language layers instead of trying a later ISO match.
Here the filename contains the well-formed ISO substring `2024-05-06`, yet
the derived date is `2023-01-05`, taken from the layer-2 fragment
`5-jan-2023`. -/
theorem C1_counterexample :
    ("2025-13-01_2024-05-06_5-jan-2023.md" =
      "2025-13-01_" ++ "2024-05-06" ++ "_5-jan-2023.md") ∧
    strptime_Y_m_d "2024-05-06" = Except.ok ⟨2024, 5, 6⟩ ∧
    extract_date_from_name "2025-13-01_2024-05-06_5-jan-2023.md" =
      some ⟨2023, 1, 5⟩ ∧
    (⟨2023, 1, 5⟩ : PDate) ≠ ⟨2024, 5, 6⟩ :=
  ⟨by decide, by rfl, by decide, by decide⟩

/-- C1 (amended): when the leftmost substring of the filename matching
`\d{4}-\d{2}-\d{2}` parses as a valid calendar date, the derived date is
exactly that date, regardless of any other text in the filename — in
particular, with several valid ISO dates present the first one wins. -/
theorem C1_first_iso_date_wins (fname s : String) (d : PDate)
    (h1 : date_regex_iso_search fname = some s)
    (h2 : strptime_Y_m_d s = Except.ok d) :
    extract_date_from_name fname = some d := by
  simp only [extract_date_from_name, extractG, h1, h2]

/-- Witness for C1 (amended) at the spec's own scenario filename. -/
theorem C1_first_iso_date_wins_witness :
    extract_date_from_name "weekly-2025-09-01_to_2025-09-07.md" =
      some ⟨2025, 9, 1⟩ :=
  C1_first_iso_date_wins "weekly-2025-09-01_to_2025-09-07.md" "2025-09-01"
    ⟨2025, 9, 1⟩ (by decide) (by rfl)

/-- C2: the sorted entry list is pairwise in descending order of derived
date, and a dated entry is never preceded by a dateless one (equivalently,
entries with a known date come before entries with none). -/
theorem C2_sorted_descending_dateless_last (listing : List String)
    (mtdate : String → PDate) :
    List.Pairwise
      (fun a b =>
        (∀ da db, a.2 = some da → b.2 = some db → dateLe db da) ∧
        (a.2 = none → b.2 = none))
      (pipelinePairs mtdate listing) := by
  have hs : List.Pairwise (fun a b => sortLe a b = true) (pipelinePairs mtdate listing) :=
    List.sorted_mergeSort sortLe_trans sortLe_total
      (buildPairs mtdate (files listing))
  refine List.Pairwise.imp_of_mem ?_ hs
  intro a b ha hb hr
  constructor
  · intro da db hda hdb
    simpa [sortLe, hda, hdb] using hr
  · intro hnone
    have h1 := mem_pipelinePairs_isSome mtdate listing a ha
    rw [hnone] at h1
    simp at h1

/-- C3: whenever no date can be derived from the filename at any of the
three parsing layers (`extract_date_from_name` yields `none`), the date
attached to the entry is the file's modification date (the last-modified
timestamp converted to the local calendar date, supplied here by the
oracle `mtdate`). -/
theorem C3_mtime_fallback (mtdate : String → PDate) (f : String)
    (h : extract_date_from_name f = none) :
    (attachDate mtdate f).2 = some (mtdate f) := by
  simp only [attachDate, h]

/-- Witness for C3 at the spec's fallback scenario: `notes-final.md` with
modification date 2024-03-02. -/
theorem C3_mtime_fallback_witness :
    (attachDate (fun _ => ⟨2024, 3, 2⟩) "notes-final.md").2 =
      some ⟨2024, 3, 2⟩ :=
  C3_mtime_fallback (fun _ => ⟨2024, 3, 2⟩) "notes-final.md" (by decide)

/-- C4: `extract_date_from_name` is a total function into an optional date
for every filename and every behaviour of the two underlying fallible
parsers: a strict-parse failure at layer 1 falls through to layer 2, a
lenient-parse failure at layer 2 falls through to layer 3, and a failure at
layer 3 yields `none` rather than propagating the exception. -/
theorem C4_layered_fallback_never_raises (sp dp : String → Except Unit PDate)
    (fname : String) :
    (∀ s, date_regex_iso_search fname = some s → sp s = Except.error () →
      extractG sp dp fname = extract_layer2 dp fname) ∧
    (∀ s, date_like_search fname = some s → dp s = Except.error () →
      extract_layer2 dp fname = extract_layer3 dp fname) ∧
    (dp fname = Except.error () → extract_layer3 dp fname = none) ∧
    (extractG sp dp fname = none ∨ ∃ d, extractG sp dp fname = some d) := by
  refine ⟨?_, ?_, ?_, ?_⟩
  · intro s h1 h2
    simp only [extractG, h1, h2]
  · intro s h1 h2
    simp only [extract_layer2, h1, h2]
  · intro h
    simp only [extract_layer3, h]
  · cases h : extractG sp dp fname with
    | none => exact Or.inl rfl
    | some d => exact Or.inr ⟨d, rfl⟩

/-- C5: the listing document is the heading, the description line, and then
exactly one link line per sorted entry — link text `"<date> — <filename>"`
when a date is known and just the filename otherwise, with the bare filename
as link target — except that for an empty entry list it is the heading, the
description line, and the single placeholder `No reports yet.` with no link
lines. -/
theorem C5_listing_document (listing : List String) (mtdate : String → PDate)
    (prev : Option String) (t : UTCTime) :
    (runProgram listing mtdate prev t).weeklyIndex =
      "# Weekly Reports Index\n\n" ++
      "_This page lists all available weekly reports._\n\n" ++
      (if (pipelinePairs mtdate listing).isEmpty then "No reports yet.\n"
       else String.join ((pipelinePairs mtdate listing).map
         (fun p => "- [" ++
           (match p.2 with
            | some dt => isoformat dt ++ " — " ++ p.1
            | none => p.1) ++ "](" ++ p.1 ++ ")\n"))) := by
  have hfun : linkLine =
      fun p : String × Option PDate => "- [" ++
        (match p.2 with
         | some dt => isoformat dt ++ " — " ++ p.1
         | none => p.1) ++ "](" ++ p.1 ++ ")\n" := by
    funext p
    apply String.ext
    cases hd : p.2 <;> simp [linkLine, display, hd]
  show String.join (weeklyIndexLines (pipelinePairs mtdate listing)) = _
  generalize pipelinePairs mtdate listing = ps
  rw [← hfun]
  cases hps : ps.isEmpty
  · apply String.ext
    simp [weeklyIndexLines, hps]
  · apply String.ext
    simp [weeklyIndexLines, hps]

/-- C6: the `.nojekyll` marker is created empty when absent, an existing
marker's content is left unchanged by a run, and the marker content after a
second run equals the content after the first run. -/
theorem C6_marker_file (l1 l2 : List String) (m1 m2 : String → PDate)
    (t1 t2 : UTCTime) (prev : Option String) (c : String) :
    (runProgram l1 m1 none t1).nojekyll = "" ∧
    (runProgram l1 m1 (some c) t1).nojekyll = c ∧
    (runProgram l2 m2 (some ((runProgram l1 m1 prev t1).nojekyll)) t2).nojekyll =
      (runProgram l1 m1 prev t1).nojekyll :=
  ⟨rfl, rfl, rfl⟩

/-- C7: the filename `before-15-sept-2025.md` matches no strict ISO pattern
and its layer-2 day-month-name-year fragment `15-sept-2025` parses to the
derived date 2025-09-15. -/
theorem C7_before_15_sept_2025 :
    date_regex_iso_search "before-15-sept-2025.md" = none ∧
    date_like_search "before-15-sept-2025.md" = some "15-sept-2025" ∧
    extract_date_from_name "before-15-sept-2025.md" = some ⟨2025, 9, 15⟩ :=
  ⟨by decide, by decide, by decide⟩

/-- C8: the landing document depends only on the clock reading — two runs at
the same instant with different listings, modification dates and marker
states produce byte-identical landing documents — and it contains the
UTC timestamp line truncated to the minute (the seconds of the clock reading
do not affect it) and the static link to the listing location. -/
theorem C8_landing_document (l1 l2 : List String) (m1 m2 : String → PDate)
    (p1 p2 : Option String) (t : UTCTime) (s2 : Nat) :
    (runProgram l1 m1 p1 t).mainIndex = (runProgram l2 m2 p2 t).mainIndex ∧
    (runProgram l1 m1 p1 t).mainIndex = String.join (main_lines t) ∧
    ("_Updated: " ++ strftimeUpdated t ++ "_\n\n") ∈ main_lines t ∧
    ("- [Weekly Reports](/weekly-reports/)\n\n") ∈ main_lines t ∧
    strftimeUpdated { t with second := s2 } = strftimeUpdated t := by
  refine ⟨rfl, rfl, ?_, ?_, rfl⟩
  · simp [main_lines]
  · simp [main_lines]

/-- C9: a directory entry is kept as a report entry exactly when its name
ends with `.md` compared case-insensitively (via `lower()`) and its name is
not the reserved index name `index.md`. -/
theorem C9_file_filter (listing : List String) (f : String) :
    f ∈ files listing ↔
      f ∈ listing ∧ f.toLower.endsWith ".md" = true ∧ f ≠ "index.md" := by
  unfold files
  rw [List.mem_filter]
  simp [Bool.and_eq_true, bne_iff_ne]

/-- C10: after the modification-time fallback every entry reaching the sort
and the renderer carries a date (`some`), and every rendered link line takes
the dated branch — the dateless rendering branch is unreachable. -/
theorem C10_dateless_branch_unreachable (listing : List String)
    (mtdate : String → PDate) :
    List.Forall
      (fun p => ∃ dt, p.2 = some dt ∧
        linkLine p = "- [" ++ isoformat dt ++ " — " ++ p.1 ++ "](" ++ p.1 ++ ")\n")
      (pipelinePairs mtdate listing) := by
  rw [List.forall_iff_forall_mem]
  intro p hp
  have h := mem_pipelinePairs_isSome mtdate listing p hp
  cases hd : p.2 with
  | none =>
    rw [hd] at h
    simp at h
  | some dt =>
    refine ⟨dt, rfl, ?_⟩
    apply String.ext
    simp [linkLine, display, hd]
